import Mathlib

/-!
Shallow embedding of the cost-allocation logic of the tco_streamlit
repository, centred on the SQL view `VW_TEAM_COSTS_PER_FEATURE` created by
`ensure_team_cost_view` in `snowflake_db.py`, and on the duplicate-name
guards of `upsert_team` / `upsert_program` / `upsert_vendor`.

SQL modelling conventions:
* nullable columns are `Option` values; `COALESCE(x, 0)` is `Option.getD x 0`;
* `FLOAT` arithmetic is modelled exactly over `ℚ`;
* tables are lists of rows; a `LEFT JOIN` on a unique key is a `List.find?`
  lookup; `GROUP BY` is realised by filtering on the group key;
* SQL equality in join conditions is null-rejecting: `NULL = x` is not true,
  so an all-`some` match is required where the code joins on possibly null
  columns.
-/

namespace TcoStreamlit

/-- Calendar timestamp; only the year component is ever read (SQL `YEAR()`). -/
structure Timestamp where
  year : Int
  month : Int
  day : Int
deriving DecidableEq, Repr

/-- Row of `ADO_FEATURES` as consumed by the `f` CTE of the view. -/
structure AdoFeature where
  feature_id : Int
  title : Option String
  state : Option String
  team_raw : Option String
  app_name_raw : Option String
  effort_points : Option ℚ
  iteration_path : Option String
  created_at : Option Timestamp
  changed_at : Option Timestamp
  ado_year : Option Int
  investment_dimension : Option String
deriving DecidableEq, Repr

/-- Row of `MAP_ADO_TEAM_TO_TCO_TEAM`. -/
structure MapRow where
  ado_team : String
  teamid : String
deriving DecidableEq, Repr

/-- Row of `TEAMS` (FTE columns are nullable `FLOAT`s). -/
structure Team where
  teamid : String
  teamname : String
  delivery_team_fte : Option ℚ
  contractor_cs_fte : Option ℚ
  contractor_c_fte : Option ℚ
  teamfte : Option ℚ
deriving DecidableEq, Repr

/-- Row of `TEAM_CALC` (rate columns are nullable `FLOAT`s). -/
structure TeamCalc where
  teamid : String
  xom_rate : Option ℚ
  contractor_cs_rate : Option ℚ
  contractor_c_rate : Option ℚ
deriving DecidableEq, Repr

/-- SQL `CAST(COALESCE(x, 0) AS FLOAT)` on a nullable numeric column. -/
def coalesceQ (x : Option ℚ) : ℚ := x.getD 0

/-! ### Iteration-number parsing

The view computes
`TRY_TO_NUMBER(REGEXP_SUBSTR(af.ITERATION_PATH, 'I[[:space:]]*([0-9]+)', 1, 1, 'i', 1))`:
the digits of the first (leftmost) occurrence of the letter `I` (either
case) followed by optional whitespace and then one or more digits.  Because
the whitespace class and the digit class are disjoint, greedy matching is
the only possible match, so a direct scan is an exact model. -/

/-- POSIX `[[:space:]]` character class. -/
def isPosixSpace (c : Char) : Bool :=
  c = ' ' || c = '\t' || c = '\n' || c = '\r' || c = '\x0b' || c = '\x0c'

/-- Numeric value of a digit string (`TRY_TO_NUMBER` on a `[0-9]+` match). -/
def digitsToNat (ds : List Char) : Nat :=
  ds.foldl (fun acc c => 10 * acc + (c.toNat - '0'.toNat)) 0

/-- Attempt to match `I[[:space:]]*([0-9]+)` (case-insensitive) at the head
of the character list, returning the numeric value of group 1. -/
def matchIterAt (cs : List Char) : Option Nat :=
  match cs with
  | [] => none
  | c :: rest =>
    if c = 'I' || c = 'i' then
      let ds := (rest.dropWhile isPosixSpace).takeWhile Char.isDigit
      if ds.isEmpty then none else some (digitsToNat ds)
    else none

/-- Leftmost match of `I[[:space:]]*([0-9]+)` over the whole list. -/
def scanIter : List Char → Option Nat
  | [] => none
  | c :: rest =>
    match matchIterAt (c :: rest) with
    | some n => some n
    | none => scanIter rest

/-- `ITERATION_NUM` of the view (`snowflake_db.py` line 1293): regex extract
over a nullable `ITERATION_PATH`. -/
def iterationNum (path : Option String) : Option Nat :=
  path.bind (fun s => scanIter s.toList)

/-- Case-insensitive match of the literal word pattern at the head of the
list, returning the remainder on success. -/
def matchWordCI : List Char → List Char → Option (List Char)
  | [], cs => some cs
  | _ :: _, [] => none
  | p :: ps, c :: cs => if c.toLower = p.toLower then matchWordCI ps cs else none

/-- Attempt to match `ITERATION[[:space:]]*([0-9]+)` (case-insensitive) at
the head of the character list. -/
def matchIterationWordAt (cs : List Char) : Option Nat :=
  match matchWordCI "iteration".toList cs with
  | none => none
  | some rest =>
    let ds := (rest.dropWhile isPosixSpace).takeWhile Char.isDigit
    if ds.isEmpty then none else some (digitsToNat ds)

/-- Leftmost match of `ITERATION[[:space:]]*([0-9]+)` over the whole list. -/
def scanIterationWord : List Char → Option Nat
  | [] => none
  | c :: rest =>
    match matchIterationWordAt (c :: rest) with
    | some n => some n
    | none => scanIterationWord rest

/-- `ITER_NUM` of the `labeled` CTE in `pages/Sync ADO Features.py`
(lines 725-728): `COALESCE` of the view regex and an
`ITERATION[[:space:]]*([0-9]+)` fallback. -/
def iterNumSync (path : Option String) : Option Nat :=
  match iterationNum path with
  | some n => some n
  | none => path.bind (fun s => scanIterationWord s.toList)

/-! ### Year derivation

The view computes
`COALESCE(af.ADO_YEAR, YEAR(COALESCE(af.CHANGED_AT, af.CREATED_AT)))`
(`snowflake_db.py` line 1292); the iteration path is never consulted. -/

/-- `ADO_YEAR` of the `f` CTE. -/
def adoYearOf (af : AdoFeature) : Option Int :=
  match af.ado_year with
  | some y => some y
  | none =>
    match af.changed_at with
    | some t => some t.year
    | none =>
      match af.created_at with
      | some t => some t.year
      | none => none

example : iterationNum (some "Release I 3") = some 3 := by decide
example : iterationNum (some "PI 2025.I3") = some 2025 := by decide
example : iterationNum (some "Iteration  12") = none := by decide
example : iterNumSync (some "Iteration  12") = some 12 := by decide
example : iterationNum (some "I1") = some 1 := by decide

/-! ### The `j` CTE: features joined to mapping, teams and rates -/

/-- Row of the `j` CTE: a feature with its resolved team and the
`COALESCE`-cast FTE and rate columns. -/
structure JRow where
  feature_id : Int
  title : Option String
  state : Option String
  team_raw : Option String
  app_name_raw : Option String
  effort_points : Option ℚ
  iteration_path : Option String
  created_at : Option Timestamp
  changed_at : Option Timestamp
  ado_year : Option Int
  iteration_num : Option Nat
  investment_dimension : Option String
  teamid : Option String
  teamname : Option String
  delivery_team_fte : ℚ
  contractor_cs_fte : ℚ
  contractor_c_fte : ℚ
  teamfte : ℚ
  xom_rate : ℚ
  contractor_cs_rate : ℚ
  contractor_c_rate : ℚ
deriving DecidableEq, Repr

/-- `LEFT JOIN MAP_ADO_TEAM_TO_TCO_TEAM m ON m.ADO_TEAM = f.TEAM_RAW`; a null
`TEAM_RAW` joins nothing (SQL equality is null-rejecting). -/
def mapLookup (mapping : List MapRow) (af : AdoFeature) : Option MapRow :=
  af.team_raw.bind (fun tr => mapping.find? (fun m => m.ado_team = tr))

/-- `LEFT JOIN TEAMS t ON t.TEAMID = m.TEAMID`. -/
def teamLookup (mapping : List MapRow) (teams : List Team)
    (af : AdoFeature) : Option Team :=
  (mapLookup mapping af).bind (fun m => teams.find? (fun t => t.teamid = m.teamid))

/-- `LEFT JOIN TEAM_CALC tc ON tc.TEAMID = t.TEAMID`. -/
def calcLookup (mapping : List MapRow) (teams : List Team)
    (calcs : List TeamCalc) (af : AdoFeature) : Option TeamCalc :=
  (teamLookup mapping teams af).bind
    (fun t => calcs.find? (fun c => c.teamid = t.teamid))

/-- Build one `j` row from a feature and the three lookups. -/
def mkJRow (mapping : List MapRow) (teams : List Team) (calcs : List TeamCalc)
    (af : AdoFeature) : JRow :=
  let m? := mapLookup mapping af
  let t? := teamLookup mapping teams af
  let tc? := calcLookup mapping teams calcs af
  { feature_id := af.feature_id
    title := af.title
    state := af.state
    team_raw := af.team_raw
    app_name_raw := af.app_name_raw
    effort_points := af.effort_points
    iteration_path := af.iteration_path
    created_at := af.created_at
    changed_at := af.changed_at
    ado_year := adoYearOf af
    iteration_num := iterationNum af.iteration_path
    investment_dimension := af.investment_dimension
    teamid := m?.map (fun m => m.teamid)
    teamname := t?.map (fun t => t.teamname)
    delivery_team_fte := coalesceQ (t?.bind (fun t => t.delivery_team_fte))
    contractor_cs_fte := coalesceQ (t?.bind (fun t => t.contractor_cs_fte))
    contractor_c_fte := coalesceQ (t?.bind (fun t => t.contractor_c_fte))
    teamfte := coalesceQ (t?.bind (fun t => t.teamfte))
    xom_rate := coalesceQ (tc?.bind (fun c => c.xom_rate))
    contractor_cs_rate := coalesceQ (tc?.bind (fun c => c.contractor_cs_rate))
    contractor_c_rate := coalesceQ (tc?.bind (fun c => c.contractor_c_rate)) }

/-- All `j` rows of the view for the given input tables. -/
def jRowsOf (feats : List AdoFeature) (mapping : List MapRow)
    (teams : List Team) (calcs : List TeamCalc) : List JRow :=
  feats.map (mkJRow mapping teams calcs)

/-! ### The `team_pi` CTE: `GROUP BY TEAMID, ADO_YEAR, ITERATION_NUM` -/

/-- Grouping key of `team_pi` (SQL `GROUP BY` places nulls in one group). -/
abbrev CohortKey := Option String × Option Int × Option Nat

/-- Grouping key of a `j` row. -/
def keyOf (r : JRow) : CohortKey := (r.teamid, r.ado_year, r.iteration_num)

/-- The group of `j` rows sharing a given key. -/
def cohort (js : List JRow) (k : CohortKey) : List JRow :=
  js.filter (fun r => keyOf r = k)

/-- `FEATURE_COUNT` of a group. -/
def featureCount (js : List JRow) (k : CohortKey) : Nat :=
  (cohort js k).length

/-- SQL `MAX` over the non-null values of a (nonempty) group; the empty case
never arises because groups contain at least one row. -/
def groupMax : List ℚ → ℚ
  | [] => 0
  | x :: xs => xs.foldl max x

/-- `TEAM_PI_FIXED_COST` of a group:
`MAX(COALESCE(TEAMFTE,0) * COALESCE(XOM_RATE,0) / 4.0)`. -/
def teamPiFixedCost (js : List JRow) (k : CohortKey) : ℚ :=
  groupMax ((cohort js k).map (fun r => r.teamfte * r.xom_rate / 4))

/-- The final `LEFT JOIN team_pi tp ON tp.TEAMID = j.TEAMID AND tp.ADO_YEAR =
j.ADO_YEAR AND tp.ITERATION_NUM = j.ITERATION_NUM`: SQL equality rejects
nulls, so a row with any null key component matches no group, and a row with
a fully defined key matches exactly its own group. -/
def teamPiJoin (js : List JRow) (r : JRow) : Option (Nat × ℚ) :=
  match r.teamid, r.ado_year, r.iteration_num with
  | some _, some _, some _ => some (featureCount js (keyOf r), teamPiFixedCost js (keyOf r))
  | _, _, _ => none

/-- `TEAM_COST_PERPI`: `CASE WHEN tp.FEATURE_COUNT > 0 THEN
tp.TEAM_PI_FIXED_COST / tp.FEATURE_COUNT ELSE 0 END` (a null comparison is
not true, so an unjoined row falls to the `ELSE 0` branch). -/
def teamCostPerPI (js : List JRow) (r : JRow) : ℚ :=
  match teamPiJoin js r with
  | some (n, f) => if 0 < n then f / (n : ℚ) else 0
  | none => 0

/-! ### Role-based cost columns -/

/-- `COMP_DENOM`: `DELIVERY_TEAM_FTE + CONTRACTOR_CS_FTE + CONTRACTOR_C_FTE`. -/
def compDenom (r : JRow) : ℚ :=
  r.delivery_team_fte + r.contractor_cs_fte + r.contractor_c_fte

/-- `COALESCE(j.EFFORT_POINTS, 0)`. -/
def effortQ (r : JRow) : ℚ := coalesceQ r.effort_points

/-- `DEL_TEAM_COST_PERPI`: the `CASE` guard yields the delivery share (0 when
the denominator is 0), multiplied outside the `CASE` by effort and rate. -/
def delTeamCostPerPI (r : JRow) : ℚ :=
  (if compDenom r = 0 then 0 else r.delivery_team_fte / compDenom r)
    * effortQ r * r.xom_rate

/-- `TEAM_CONTRACTOR_CS_COST_PERPI`. -/
def contractorCsCostPerPI (r : JRow) : ℚ :=
  (if compDenom r = 0 then 0 else r.contractor_cs_fte / compDenom r)
    * effortQ r * r.contractor_cs_rate

/-- `TEAM_CONTRACTOR_C_COST_PERPI`. -/
def contractorCCostPerPI (r : JRow) : ℚ :=
  (if compDenom r = 0 then 0 else r.contractor_c_fte / compDenom r)
    * effortQ r * r.contractor_c_rate

/-! ### The view output -/

/-- Output row of `VW_TEAM_COSTS_PER_FEATURE`. -/
structure OutRow where
  feature_id : Int
  title : Option String
  state : Option String
  team_raw : Option String
  app_name_raw : Option String
  effort_points : Option ℚ
  iteration_path : Option String
  created_at : Option Timestamp
  changed_at : Option Timestamp
  ado_year : Option Int
  iteration_num : Option Nat
  ado_pi_key : Option String
  teamid : Option String
  teamname : Option String
  delivery_team_fte : ℚ
  contractor_cs_fte : ℚ
  contractor_c_fte : ℚ
  teamfte : ℚ
  xom_rate : ℚ
  contractor_cs_rate : ℚ
  contractor_c_rate : ℚ
  investment_dimension : Option String
  comp_denom : ℚ
  team_cost_perpi : ℚ
  del_team_cost_perpi : ℚ
  team_contractor_cs_cost_perpi : ℚ
  team_contractor_c_cost_perpi : ℚ
deriving DecidableEq, Repr

/-- The final `SELECT` of the view for one `j` row. -/
def outRow (js : List JRow) (r : JRow) : OutRow :=
  { feature_id := r.feature_id
    title := r.title
    state := r.state
    team_raw := r.team_raw
    app_name_raw := r.app_name_raw
    effort_points := r.effort_points
    iteration_path := r.iteration_path
    created_at := r.created_at
    changed_at := r.changed_at
    ado_year := r.ado_year
    iteration_num := r.iteration_num
    ado_pi_key :=
      match r.ado_year, r.iteration_num with
      | some y, some i => some (toString y ++ "-I" ++ toString i)
      | _, _ => none
    teamid := r.teamid
    teamname := r.teamname
    delivery_team_fte := r.delivery_team_fte
    contractor_cs_fte := r.contractor_cs_fte
    contractor_c_fte := r.contractor_c_fte
    teamfte := r.teamfte
    xom_rate := r.xom_rate
    contractor_cs_rate := r.contractor_cs_rate
    contractor_c_rate := r.contractor_c_rate
    investment_dimension := r.investment_dimension
    comp_denom := compDenom r
    team_cost_perpi := teamCostPerPI js r
    del_team_cost_perpi := delTeamCostPerPI r
    team_contractor_cs_cost_perpi := contractorCsCostPerPI r
    team_contractor_c_cost_perpi := contractorCCostPerPI r }

/-- `VW_TEAM_COSTS_PER_FEATURE` as a function of its four input tables. -/
def vwTeamCostsPerFeature (feats : List AdoFeature) (mapping : List MapRow)
    (teams : List Team) (calcs : List TeamCalc) : List OutRow :=
  (jRowsOf feats mapping teams calcs).map (outRow (jRowsOf feats mapping teams calcs))

/-! ### The end-to-end scenario of the specification

Team X: `team_fte = 4`, `xom_rate = 100000`, `delivery_fte = 2`,
`contractor_cs_fte = 1`, `contractor_c_fte = 1`, `contractor_cs_rate =
80000`, `contractor_c_rate = 70000`; two features in (year 2025,
iteration 1): A with 3 effort points, B with 1. -/

/-- Scenario team X. -/
def teamX : Team :=
  { teamid := "TX", teamname := "Team X", delivery_team_fte := some 2
    contractor_cs_fte := some 1, contractor_c_fte := some 1, teamfte := some 4 }

/-- Scenario rates for team X. -/
def calcX : TeamCalc :=
  { teamid := "TX", xom_rate := some 100000
    contractor_cs_rate := some 80000, contractor_c_rate := some 70000 }

/-- Scenario mapping of the raw team label to team X. -/
def mapX : MapRow := { ado_team := "X Raw", teamid := "TX" }

/-- Scenario feature A: 3 effort points in (2025, I1). -/
def featA : AdoFeature :=
  { feature_id := 1, title := some "A", state := none, team_raw := some "X Raw"
    app_name_raw := none, effort_points := some 3, iteration_path := some "I1"
    created_at := none, changed_at := none, ado_year := some 2025
    investment_dimension := none }

/-- Scenario feature B: 1 effort point in (2025, I1). -/
def featB : AdoFeature :=
  { feature_id := 2, title := some "B", state := none, team_raw := some "X Raw"
    app_name_raw := none, effort_points := some 1, iteration_path := some "I1"
    created_at := none, changed_at := none, ado_year := some 2025
    investment_dimension := none }

/-- The view evaluated on the scenario tables. -/
def scenarioView : List OutRow :=
  vwTeamCostsPerFeature [featA, featB] [mapX] [teamX] [calcX]

example :
    scenarioView.map (fun o => o.team_cost_perpi) = [50000, 50000] := by
  simp +decide [scenarioView, vwTeamCostsPerFeature, jRowsOf, mkJRow, mapLookup, teamLookup, calcLookup, outRow,
    teamCostPerPI, teamPiJoin, featureCount, teamPiFixedCost, cohort, keyOf,
    groupMax, coalesceQ, adoYearOf, iterationNum, featA, featB, mapX, teamX,
    calcX, scanIter, matchIterAt, isPosixSpace, digitsToNat]
  norm_num

/-! ### General lemmas about the view -/

/-- Summing a constant over a list multiplies by its length. -/
theorem sum_map_const_q {α : Type} (l : List α) (c : ℚ) :
    (l.map (fun _ => c)).sum = l.length * c := by
  induction l with
  | nil => simp
  | cons a t ih => simp [ih]; ring

/-- The output row preserves the grouping key of its `j` row. -/
theorem outRow_key (js : List JRow) (r : JRow) :
    ((outRow js r).teamid, (outRow js r).ado_year, (outRow js r).iteration_num)
      = keyOf r := rfl

/-- A row whose grouping key is fully defined joins its own `team_pi` group,
so its `TEAM_COST_PERPI` is the group cost divided by the group size. -/
theorem teamCostPerPI_eq_div (js : List JRow) (r : JRow) (tid : String)
    (y : Int) (i : Nat) (hk : keyOf r = (some tid, some y, some i))
    (hpos : 0 < featureCount js (keyOf r)) :
    teamCostPerPI js r
      = teamPiFixedCost js (keyOf r) / (featureCount js (keyOf r) : ℚ) := by
  have ht : r.teamid = some tid := congrArg Prod.fst hk
  have hy : r.ado_year = some y := congrArg (fun k => k.2.1) hk
  have hi : r.iteration_num = some i := congrArg (fun k => k.2.2) hk
  unfold teamCostPerPI teamPiJoin
  rw [ht, hy, hi]
  exact if_pos hpos

/-- Membership in a cohort makes the feature count positive. -/
theorem featureCount_pos_of_mem (js : List JRow) (k : CohortKey) (r : JRow)
    (hr : r ∈ cohort js k) : 0 < featureCount js k := by
  unfold featureCount
  exact List.length_pos.mpr (fun h => by simp [h] at hr)

/-- A member of a cohort carries the cohort key. -/
theorem keyOf_of_mem_cohort (js : List JRow) (k : CohortKey) (r : JRow)
    (hr : r ∈ cohort js k) : keyOf r = k := by
  unfold cohort at hr
  have := (List.mem_filter.mp hr).2
  simpa using this

/-- Filtering the view output on a key equals mapping the cohort of `j` rows. -/
theorem view_filter_eq_cohort (js : List JRow) (k : CohortKey) :
    (js.map (outRow js)).filter
        (fun o => decide ((o.teamid, o.ado_year, o.iteration_num) = k))
      = (cohort js k).map (outRow js) := by
  unfold cohort
  rw [List.filter_map]
  congr 1

/-- C1: Allocation conservation.  For every non-empty cohort of features
sharing a fully defined (team, year, iteration) key, the sum over the cohort
of `TEAM_COST_PERPI` as computed by `VW_TEAM_COSTS_PER_FEATURE` equals the
cohort's fixed per-period cost `TEAM_PI_FIXED_COST` exactly (the embedding
computes over `ℚ`, so no floating-point tolerance is needed): no leakage and
no double counting. -/
theorem allocation_conservation
    (feats : List AdoFeature) (mapping : List MapRow) (teams : List Team)
    (calcs : List TeamCalc) (tid : String) (y : Int) (i : Nat)
    (hne : cohort (jRowsOf feats mapping teams calcs) (some tid, some y, some i) ≠ []) :
    (((vwTeamCostsPerFeature feats mapping teams calcs).filter
        (fun o => decide ((o.teamid, o.ado_year, o.iteration_num)
          = ((some tid, some y, some i) : CohortKey)))).map
      (fun o => o.team_cost_perpi)).sum
      = teamPiFixedCost (jRowsOf feats mapping teams calcs)
          (some tid, some y, some i) := by
  set js := jRowsOf feats mapping teams calcs with hjs
  set k : CohortKey := (some tid, some y, some i) with hk
  have h1 : (vwTeamCostsPerFeature feats mapping teams calcs).filter
      (fun o => decide ((o.teamid, o.ado_year, o.iteration_num) = k))
      = (cohort js k).map (outRow js) := by
    unfold vwTeamCostsPerFeature
    rw [← hjs]
    exact view_filter_eq_cohort js k
  rw [h1, List.map_map]
  have hconst : ∀ r ∈ cohort js k,
      ((fun o => o.team_cost_perpi) ∘ outRow js) r
        = teamPiFixedCost js k / (featureCount js k : ℚ) := by
    intro r hr
    have hkey := keyOf_of_mem_cohort js k r hr
    have hpos : 0 < featureCount js k := featureCount_pos_of_mem js k r hr
    show teamCostPerPI js r = teamPiFixedCost js k / (featureCount js k : ℚ)
    rw [← hkey] at hpos ⊢
    exact teamCostPerPI_eq_div js r tid y i (by rw [hkey, hk]) hpos
  rw [List.map_congr_left hconst, sum_map_const_q]
  have hlen : (cohort js k).length = featureCount js k := rfl
  rw [hlen]
  have hn : (featureCount js k : ℚ) ≠ 0 := by
    have : 0 < featureCount js k := by
      unfold featureCount
      exact List.length_pos.mpr hne
    exact_mod_cast Nat.pos_iff_ne_zero.mp this
  field_simp

/-- Scenario `j` rows. -/
def jsScenario : List JRow := jRowsOf [featA, featB] [mapX] [teamX] [calcX]

/-- Scenario `j` row of feature A. -/
def rowA : JRow := mkJRow [mapX] [teamX] [calcX] featA

/-- Scenario cohort key: team X in (2025, iteration 1). -/
def kScenario : CohortKey := (some "TX", some 2025, some 1)

/-- Witness for `allocation_conservation` on the concrete scenario cohort. -/
theorem allocation_conservation_witness :
    cohort (jRowsOf [featA, featB] [mapX] [teamX] [calcX])
        (some "TX", some 2025, some 1) ≠ [] ∧
    (((vwTeamCostsPerFeature [featA, featB] [mapX] [teamX] [calcX]).filter
        (fun o => decide ((o.teamid, o.ado_year, o.iteration_num)
          = ((some "TX", some 2025, some 1) : CohortKey)))).map
      (fun o => o.team_cost_perpi)).sum
      = teamPiFixedCost (jRowsOf [featA, featB] [mapX] [teamX] [calcX])
          (some "TX", some 2025, some 1) :=
  ⟨by decide,
   allocation_conservation [featA, featB] [mapX] [teamX] [calcX] "TX" 2025 1
     (by decide)⟩

/-- Every output row of the view with a fully defined (team, year, iteration)
key receives exactly the even share `TEAM_PI_FIXED_COST / FEATURE_COUNT` of
its cohort, whatever its own effort points. -/
theorem view_even_split (feats : List AdoFeature) (mapping : List MapRow)
    (teams : List Team) (calcs : List TeamCalc) (tid : String) (y : Int)
    (i : Nat) (o : OutRow)
    (ho : o ∈ vwTeamCostsPerFeature feats mapping teams calcs)
    (ht : o.teamid = some tid) (hy : o.ado_year = some y)
    (hi : o.iteration_num = some i) :
    o.team_cost_perpi
      = teamPiFixedCost (jRowsOf feats mapping teams calcs)
          (some tid, some y, some i)
        / (featureCount (jRowsOf feats mapping teams calcs)
            (some tid, some y, some i) : ℚ) := by
  set js := jRowsOf feats mapping teams calcs with hjs
  obtain ⟨r, hr, rfl⟩ : ∃ r, r ∈ js ∧ outRow js r = o := by
    unfold vwTeamCostsPerFeature at ho
    rw [← hjs] at ho
    exact List.mem_map.mp ho
  have ht2 : r.teamid = some tid := ht
  have hy2 : r.ado_year = some y := hy
  have hi2 : r.iteration_num = some i := hi
  have hkey : keyOf r = (some tid, some y, some i) := by
    show (r.teamid, r.ado_year, r.iteration_num) = _
    rw [ht2, hy2, hi2]
  have hmem : r ∈ cohort js (some tid, some y, some i) :=
    List.mem_filter.mpr ⟨hr, by rw [hkey]; simp⟩
  have hpos : 0 < featureCount js (some tid, some y, some i) :=
    featureCount_pos_of_mem js _ r hmem
  show teamCostPerPI js r = _
  have := teamCostPerPI_eq_div js r tid y i hkey (by rw [hkey]; exact hpos)
  rw [hkey] at this
  exact this

/-- C3: Even split.  In the view as created by the code, every feature whose
cohort key is fully defined receives `TEAM_COST_PERPI = TEAM_PI_FIXED_COST /
FEATURE_COUNT`, independently of its own effort points (the right-hand side
does not mention them); in particular when all features of the cohort have
zero or null effort, each still receives exactly F / N. -/
theorem even_split (feats : List AdoFeature) (mapping : List MapRow)
    (teams : List Team) (calcs : List TeamCalc) (tid : String) (y : Int)
    (i : Nat) (o : OutRow)
    (ho : o ∈ vwTeamCostsPerFeature feats mapping teams calcs)
    (ht : o.teamid = some tid) (hy : o.ado_year = some y)
    (hi : o.iteration_num = some i) :
    o.team_cost_perpi
      = teamPiFixedCost (jRowsOf feats mapping teams calcs)
          (some tid, some y, some i)
        / (featureCount (jRowsOf feats mapping teams calcs)
            (some tid, some y, some i) : ℚ) :=
  view_even_split feats mapping teams calcs tid y i o ho ht hy hi

/-- Witness for `even_split`: feature A of the scenario receives the even
share of the (TX, 2025, I1) cohort. -/
theorem even_split_witness :
    outRow jsScenario rowA ∈ vwTeamCostsPerFeature [featA, featB] [mapX] [teamX] [calcX]
  ∧ (outRow jsScenario rowA).teamid = some "TX"
  ∧ (outRow jsScenario rowA).team_cost_perpi
      = teamPiFixedCost jsScenario kScenario / (featureCount jsScenario kScenario : ℚ) :=
  ⟨List.mem_map_of_mem (outRow jsScenario) (List.mem_cons_self _ _),
   rfl,
   even_split [featA, featB] [mapX] [teamX] [calcX] "TX" 2025 1
     (outRow jsScenario rowA)
     (List.mem_map_of_mem (outRow jsScenario) (List.mem_cons_self _ _))
     rfl rfl rfl⟩

/-- `total_effort` of a cohort (the quantity the specification uses to state
proportional allocation; the view itself never computes it). -/
def totalEffort (js : List JRow) (k : CohortKey) : ℚ :=
  ((cohort js k).map effortQ).sum

/-- C2 counterexample: in the end-to-end scenario (F = 100000, feature A
with 3 effort points, feature B with 1) the view allocates 50000 to each
feature, not the proportional 75000 / 25000 the claim states. -/
theorem proportional_allocation_counterexample :
    scenarioView.map (fun o => o.team_cost_perpi) = [50000, 50000] ∧
    scenarioView.map (fun o => o.team_cost_perpi) ≠ [75000, 25000] := by
  have h : scenarioView.map (fun o => o.team_cost_perpi) = [50000, 50000] := by
    simp +decide [scenarioView, vwTeamCostsPerFeature, jRowsOf, mkJRow, mapLookup, teamLookup, calcLookup, outRow,
      teamCostPerPI, teamPiJoin, featureCount, teamPiFixedCost, cohort, keyOf,
      groupMax, coalesceQ, adoYearOf, iterationNum, featA, featB, mapX, teamX,
      calcX, scanIter, matchIterAt, isPosixSpace, digitsToNat]
    norm_num
  refine ⟨h, ?_⟩
  rw [h]
  intro hcontra
  have : (50000 : ℚ) = 75000 := by
    simpa using congrArg (fun l => l.headD 0) hcontra
  norm_num at this

/-- C2 amended: even when the cohort's total effort points are strictly
positive, each feature of a fully keyed cohort receives the even share
`TEAM_PI_FIXED_COST / FEATURE_COUNT`, not an effort-proportional share; in
the end-to-end scenario both features receive 50000. -/
theorem proportional_allocation_amended (feats : List AdoFeature)
    (mapping : List MapRow) (teams : List Team) (calcs : List TeamCalc)
    (tid : String) (y : Int) (i : Nat) (o : OutRow)
    (ho : o ∈ vwTeamCostsPerFeature feats mapping teams calcs)
    (ht : o.teamid = some tid) (hy : o.ado_year = some y)
    (hi : o.iteration_num = some i)
    (_heff : 0 < totalEffort (jRowsOf feats mapping teams calcs)
      (some tid, some y, some i)) :
    o.team_cost_perpi
      = teamPiFixedCost (jRowsOf feats mapping teams calcs)
          (some tid, some y, some i)
        / (featureCount (jRowsOf feats mapping teams calcs)
            (some tid, some y, some i) : ℚ) :=
  view_even_split feats mapping teams calcs tid y i o ho ht hy hi

/-- Witness for `proportional_allocation_amended` on the scenario: feature A
has positive cohort effort and still receives the even share. -/
theorem proportional_allocation_amended_witness :
    0 < totalEffort jsScenario kScenario
  ∧ (outRow jsScenario rowA).team_cost_perpi
      = teamPiFixedCost jsScenario kScenario / (featureCount jsScenario kScenario : ℚ) :=
  ⟨by
    simp +decide [totalEffort, jsScenario, kScenario, cohort, keyOf, jRowsOf,
      mkJRow, mapLookup, teamLookup, calcLookup, effortQ, coalesceQ, adoYearOf, iterationNum, featA, featB, mapX,
      teamX, calcX, scanIter, matchIterAt, isPosixSpace, digitsToNat]
    norm_num,
   proportional_allocation_amended [featA, featB] [mapX] [teamX] [calcX]
     "TX" 2025 1 (outRow jsScenario rowA)
     (List.mem_map_of_mem (outRow jsScenario) (List.mem_cons_self _ _))
     rfl rfl rfl
     (by
       simp +decide [totalEffort, jsScenario, kScenario, cohort, keyOf, jRowsOf,
         mkJRow, mapLookup, teamLookup, calcLookup, effortQ, coalesceQ, adoYearOf, iterationNum, featA, featB,
         mapX, teamX, calcX, scanIter, matchIterAt, isPosixSpace, digitsToNat]
       norm_num)⟩

/-! ### C4: the fixed team-period cost -/

/-- `COALESCE(TEAMFTE, 0)` of the `TEAMS` row with the given id. -/
def teamFteOf (teams : List Team) (tid : String) : ℚ :=
  coalesceQ ((teams.find? (fun t => t.teamid = tid)).bind (fun t => t.teamfte))

/-- `COALESCE(XOM_RATE, 0)` of the `TEAM_CALC` row reached through the
`TEAMS` row with the given id. -/
def xomRateOf (teams : List Team) (calcs : List TeamCalc) (tid : String) : ℚ :=
  coalesceQ (((teams.find? (fun t => t.teamid = tid)).bind
    (fun t => calcs.find? (fun c => c.teamid = t.teamid))).bind
    (fun c => c.xom_rate))

/-- Folding `max` over copies of the initial value is the identity. -/
theorem foldl_max_const (t : List ℚ) (c : ℚ) (h : ∀ x ∈ t, x = c) :
    t.foldl max c = c := by
  induction t with
  | nil => rfl
  | cons a s ih =>
    have ha : a = c := h a (List.mem_cons_self _ _)
    rw [List.foldl_cons, ha, max_self]
    exact ih (fun x hx => h x (List.mem_cons_of_mem _ hx))

/-- SQL `MAX` over a nonempty group of equal values is that value. -/
theorem groupMax_const (l : List ℚ) (c : ℚ) (hne : l ≠ [])
    (h : ∀ x ∈ l, x = c) : groupMax l = c := by
  cases l with
  | nil => exact absurd rfl hne
  | cons a t =>
    have ha : a = c := h a (List.mem_cons_self _ _)
    unfold groupMax
    rw [ha]
    exact foldl_max_const t c (fun x hx => h x (List.mem_cons_of_mem _ hx))

/-- A mapped `j` row draws its `TEAMFTE` and `XOM_RATE` from the team and
calc rows found by its resolved team id. -/
theorem mkJRow_team_fields (mapping : List MapRow) (teams : List Team)
    (calcs : List TeamCalc) (af : AdoFeature) (tid : String)
    (h : (mkJRow mapping teams calcs af).teamid = some tid) :
    (mkJRow mapping teams calcs af).teamfte = teamFteOf teams tid
  ∧ (mkJRow mapping teams calcs af).xom_rate = xomRateOf teams calcs tid := by
  have h2 : (mapLookup mapping af).map (fun m => m.teamid) = some tid := h
  obtain ⟨m, hm, htid⟩ := Option.map_eq_some'.mp h2
  have hteam : teamLookup mapping teams af
      = teams.find? (fun t => t.teamid = tid) := by
    unfold teamLookup
    rw [hm]
    show teams.find? (fun t => t.teamid = m.teamid)
        = teams.find? (fun t => t.teamid = tid)
    rw [htid]
  constructor
  · show coalesceQ ((teamLookup mapping teams af).bind (fun t => t.teamfte))
        = teamFteOf teams tid
    rw [hteam]
    rfl
  · show coalesceQ ((calcLookup mapping teams calcs af).bind (fun c => c.xom_rate))
        = xomRateOf teams calcs tid
    unfold calcLookup
    rw [hteam]
    rfl

/-- A `j` row is a member of its own cohort. -/
theorem self_mem_cohort (js : List JRow) (r : JRow) (hr : r ∈ js) :
    r ∈ cohort js (keyOf r) :=
  List.mem_filter.mpr ⟨hr, by simp⟩

/-- Cohort membership implies membership in the `j` rows. -/
theorem mem_of_mem_cohort (js : List JRow) (k : CohortKey) (r : JRow)
    (hr : r ∈ cohort js k) : r ∈ js := by
  unfold cohort at hr
  exact (List.mem_filter.mp hr).1

/-- The fixed cost of any nonempty cohort keyed by a team id is that team's
`COALESCE(TEAMFTE,0) * COALESCE(XOM_RATE,0) / 4`: all group members share
the same team row, so the SQL `MAX` is the common value. -/
theorem teamPiFixedCost_eq (feats : List AdoFeature) (mapping : List MapRow)
    (teams : List Team) (calcs : List TeamCalc) (tid : String)
    (yo : Option Int) (io : Option Nat)
    (hne : cohort (jRowsOf feats mapping teams calcs) (some tid, yo, io) ≠ []) :
    teamPiFixedCost (jRowsOf feats mapping teams calcs) (some tid, yo, io)
      = teamFteOf teams tid * xomRateOf teams calcs tid / 4 := by
  unfold teamPiFixedCost
  apply groupMax_const
  · simpa using hne
  · intro x hx
    obtain ⟨r, hr, rfl⟩ := List.mem_map.mp hx
    have hkey := keyOf_of_mem_cohort (jRowsOf feats mapping teams calcs) _ r hr
    have ht : r.teamid = some tid := congrArg Prod.fst hkey
    have hrj : r ∈ jRowsOf feats mapping teams calcs :=
      mem_of_mem_cohort _ _ r hr
    obtain ⟨af, _, rfl⟩ := List.mem_map.mp hrj
    obtain ⟨hf, hxr⟩ := mkJRow_team_fields mapping teams calcs af tid ht
    rw [hf, hxr]

/-- C4: Fixed team-period cost.  For every team id, the fixed per-period
cost of each of its nonempty cohorts equals `COALESCE(TEAMFTE,0) *
COALESCE(XOM_RATE,0) / 4` (a missing team, calc row, or null column is
treated as 0, never an error), and when that `TEAMFTE` or `XOM_RATE`
coalesces to 0 every output row of the team has `TEAM_COST_PERPI = 0`. -/
theorem fixed_period_cost (feats : List AdoFeature) (mapping : List MapRow)
    (teams : List Team) (calcs : List TeamCalc) (tid : String) :
    (∀ (yo : Option Int) (io : Option Nat),
        cohort (jRowsOf feats mapping teams calcs) (some tid, yo, io) ≠ [] →
        teamPiFixedCost (jRowsOf feats mapping teams calcs) (some tid, yo, io)
          = teamFteOf teams tid * xomRateOf teams calcs tid / 4)
  ∧ ((teamFteOf teams tid = 0 ∨ xomRateOf teams calcs tid = 0) →
      ∀ o ∈ vwTeamCostsPerFeature feats mapping teams calcs,
        o.teamid = some tid → o.team_cost_perpi = 0) := by
  constructor
  · exact fun yo io hne => teamPiFixedCost_eq feats mapping teams calcs tid yo io hne
  · intro hz o ho ht
    obtain ⟨r, hr, rfl⟩ : ∃ r, r ∈ jRowsOf feats mapping teams calcs
        ∧ outRow (jRowsOf feats mapping teams calcs) r = o := by
      unfold vwTeamCostsPerFeature at ho
      exact List.mem_map.mp ho
    have ht2 : r.teamid = some tid := ht
    show teamCostPerPI (jRowsOf feats mapping teams calcs) r = 0
    cases hyr : r.ado_year with
    | none =>
      unfold teamCostPerPI teamPiJoin
      rw [ht2, hyr]
    | some y =>
      cases hir : r.iteration_num with
      | none =>
        unfold teamCostPerPI teamPiJoin
        rw [ht2, hyr, hir]
      | some i =>
        have hkey : keyOf r = (some tid, some y, some i) := by
          show (r.teamid, r.ado_year, r.iteration_num) = _
          rw [ht2, hyr, hir]
        have hmem : r ∈ cohort (jRowsOf feats mapping teams calcs)
            (some tid, some y, some i) := by
          rw [← hkey]
          exact self_mem_cohort _ r hr
        have hne : cohort (jRowsOf feats mapping teams calcs)
            (some tid, some y, some i) ≠ [] := by
          intro hnil
          rw [hnil] at hmem
          exact absurd hmem (List.not_mem_nil r)
        have hpos : 0 < featureCount (jRowsOf feats mapping teams calcs)
            (some tid, some y, some i) :=
          featureCount_pos_of_mem _ _ r hmem
        have hF : teamPiFixedCost (jRowsOf feats mapping teams calcs)
            (some tid, some y, some i) = 0 := by
          rw [teamPiFixedCost_eq feats mapping teams calcs tid (some y) (some i) hne]
          rcases hz with h0 | h0
          · rw [h0]; ring
          · rw [h0]; ring
        have hdiv := teamCostPerPI_eq_div (jRowsOf feats mapping teams calcs)
          r tid y i hkey (by rw [hkey]; exact hpos)
        rw [hkey] at hdiv
        rw [hdiv, hF, zero_div]

/-- Zero-FTE team for the `fixed_period_cost` witness. -/
def teamZ : Team :=
  { teamid := "TZ", teamname := "Team Z", delivery_team_fte := some 1
    contractor_cs_fte := none, contractor_c_fte := none, teamfte := some 0 }

/-- Rates for team Z. -/
def calcZ : TeamCalc :=
  { teamid := "TZ", xom_rate := some 100000
    contractor_cs_rate := some 80000, contractor_c_rate := some 70000 }

/-- Mapping of the raw label to team Z. -/
def mapZ : MapRow := { ado_team := "Z Raw", teamid := "TZ" }

/-- A feature of team Z. -/
def featZ : AdoFeature :=
  { feature_id := 9, title := none, state := none, team_raw := some "Z Raw"
    app_name_raw := none, effort_points := some 2, iteration_path := some "I2"
    created_at := none, changed_at := none, ado_year := some 2025
    investment_dimension := none }

/-- Witness for `fixed_period_cost`: team Z has `TEAMFTE = 0`, so its
feature receives `TEAM_COST_PERPI = 0`. -/
theorem fixed_period_cost_witness :
    teamFteOf [teamZ] "TZ" = 0
  ∧ (outRow (jRowsOf [featZ] [mapZ] [teamZ] [calcZ])
        (mkJRow [mapZ] [teamZ] [calcZ] featZ)).team_cost_perpi = 0 :=
  ⟨rfl,
   (fixed_period_cost [featZ] [mapZ] [teamZ] [calcZ] "TZ").2 (Or.inl rfl)
     (outRow (jRowsOf [featZ] [mapZ] [teamZ] [calcZ])
       (mkJRow [mapZ] [teamZ] [calcZ] featZ))
     (List.mem_map_of_mem _ (List.mem_cons_self _ _)) rfl⟩

/-! ### C5: role-based costs -/

/-- C5: Role-cost zero-denominator guard and formula.  For every output row,
when `DELIVERY_TEAM_FTE + CONTRACTOR_CS_FTE + CONTRACTOR_C_FTE = 0` all
three role-based cost columns are 0 whatever the effort points (the `CASE`
guard short-circuits the division); otherwise each role cost is
`(role_fte / denom) * COALESCE(effort, 0) * role_rate`, and each role cost
scales linearly with the feature's effort points. -/
theorem role_cost_guard (feats : List AdoFeature) (mapping : List MapRow)
    (teams : List Team) (calcs : List TeamCalc) (o : OutRow)
    (ho : o ∈ vwTeamCostsPerFeature feats mapping teams calcs) :
    (o.comp_denom = 0 →
        o.del_team_cost_perpi = 0
      ∧ o.team_contractor_cs_cost_perpi = 0
      ∧ o.team_contractor_c_cost_perpi = 0)
  ∧ (o.comp_denom ≠ 0 →
        o.del_team_cost_perpi
          = o.delivery_team_fte / o.comp_denom * coalesceQ o.effort_points
            * o.xom_rate
      ∧ o.team_contractor_cs_cost_perpi
          = o.contractor_cs_fte / o.comp_denom * coalesceQ o.effort_points
            * o.contractor_cs_rate
      ∧ o.team_contractor_c_cost_perpi
          = o.contractor_c_fte / o.comp_denom * coalesceQ o.effort_points
            * o.contractor_c_rate)
  ∧ (∀ (r : JRow) (c e : ℚ),
        delTeamCostPerPI { r with effort_points := some (c * e) }
          = c * delTeamCostPerPI { r with effort_points := some e }
      ∧ contractorCsCostPerPI { r with effort_points := some (c * e) }
          = c * contractorCsCostPerPI { r with effort_points := some e }
      ∧ contractorCCostPerPI { r with effort_points := some (c * e) }
          = c * contractorCCostPerPI { r with effort_points := some e }) := by
  obtain ⟨r, hr, rfl⟩ : ∃ r, r ∈ jRowsOf feats mapping teams calcs
      ∧ outRow (jRowsOf feats mapping teams calcs) r = o := by
    unfold vwTeamCostsPerFeature at ho
    exact List.mem_map.mp ho
  refine ⟨?_, ?_, ?_⟩
  · intro h0
    have h0r : compDenom r = 0 := h0
    refine ⟨?_, ?_, ?_⟩
    · show delTeamCostPerPI r = 0
      unfold delTeamCostPerPI
      rw [if_pos h0r, zero_mul, zero_mul]
    · show contractorCsCostPerPI r = 0
      unfold contractorCsCostPerPI
      rw [if_pos h0r, zero_mul, zero_mul]
    · show contractorCCostPerPI r = 0
      unfold contractorCCostPerPI
      rw [if_pos h0r, zero_mul, zero_mul]
  · intro hne
    have hner : compDenom r ≠ 0 := hne
    refine ⟨?_, ?_, ?_⟩
    · show delTeamCostPerPI r
        = r.delivery_team_fte / compDenom r * effortQ r * r.xom_rate
      unfold delTeamCostPerPI
      rw [if_neg hner]
    · show contractorCsCostPerPI r
        = r.contractor_cs_fte / compDenom r * effortQ r * r.contractor_cs_rate
      unfold contractorCsCostPerPI
      rw [if_neg hner]
    · show contractorCCostPerPI r
        = r.contractor_c_fte / compDenom r * effortQ r * r.contractor_c_rate
      unfold contractorCCostPerPI
      rw [if_neg hner]
  · intro s c e
    refine ⟨?_, ?_, ?_⟩
    · show (if compDenom s = 0 then 0 else s.delivery_team_fte / compDenom s)
            * (c * e) * s.xom_rate
        = c * ((if compDenom s = 0 then 0 else s.delivery_team_fte / compDenom s)
            * e * s.xom_rate)
      ring
    · show (if compDenom s = 0 then 0 else s.contractor_cs_fte / compDenom s)
            * (c * e) * s.contractor_cs_rate
        = c * ((if compDenom s = 0 then 0 else s.contractor_cs_fte / compDenom s)
            * e * s.contractor_cs_rate)
      ring
    · show (if compDenom s = 0 then 0 else s.contractor_c_fte / compDenom s)
            * (c * e) * s.contractor_c_rate
        = c * ((if compDenom s = 0 then 0 else s.contractor_c_fte / compDenom s)
            * e * s.contractor_c_rate)
      ring

/-- Witness for `role_cost_guard`: feature A of the scenario has denominator
4 and receives the formula-based delivery cost. -/
theorem role_cost_guard_witness :
    (outRow jsScenario rowA).comp_denom ≠ 0
  ∧ (outRow jsScenario rowA).del_team_cost_perpi
      = (outRow jsScenario rowA).delivery_team_fte
          / (outRow jsScenario rowA).comp_denom
        * coalesceQ (outRow jsScenario rowA).effort_points
        * (outRow jsScenario rowA).xom_rate := by
  have hden : (outRow jsScenario rowA).comp_denom ≠ 0 := by
    show compDenom rowA ≠ 0
    unfold compDenom rowA mkJRow teamLookup mapLookup
    norm_num [featA, mapX, teamX, coalesceQ]
  exact ⟨hden,
    ((role_cost_guard [featA, featB] [mapX] [teamX] [calcX]
        (outRow jsScenario rowA)
        (List.mem_map_of_mem (outRow jsScenario) (List.mem_cons_self _ _))).2.1
      hden).1⟩

/-! ### C6: iteration-number parsing -/

/-- A list without the letter `I` in either case never matches the view
regex. -/
theorem scanIter_none (l : List Char) (h : ∀ c ∈ l, c ≠ 'I' ∧ c ≠ 'i') :
    scanIter l = none := by
  induction l with
  | nil => rfl
  | cons c rest ih =>
    have hc := h c (List.mem_cons_self _ _)
    have hm : matchIterAt (c :: rest) = none := by
      simp [matchIterAt, hc.1, hc.2]
    simp [scanIter, hm, ih (fun x hx => h x (List.mem_cons_of_mem _ hx))]

/-- C6 counterexample: on `"PI 2025.I3"` the view regex
`I[[:space:]]*([0-9]+)` first matches the `I` of `PI` followed by a space
and `2025`, so the extracted iteration number is 2025, not the 3 the claim
states. -/
theorem iteration_parsing_counterexample :
    iterationNum (some "PI 2025.I3") = some 2025
  ∧ iterationNum (some "PI 2025.I3") ≠ some 3 := by decide

/-- C6 amended: the extracted iteration number is the integer after the
first occurrence of the letter `I` (either case) followed by optional
whitespace and digits, with no token anchoring: `"Release I 3"` gives 3,
`"PI 2025.I3"` gives 2025, `"Iteration  12"` gives null in the view (the
Sync-page fallback regex `ITERATION[[:space:]]*([0-9]+)` recovers 12
there), a null path gives null, and a path without the letter `I` never
parses. -/
theorem iteration_parsing_amended :
    iterationNum (some "Release I 3") = some 3
  ∧ iterationNum (some "PI 2025.I3") = some 2025
  ∧ iterationNum (some "Iteration  12") = none
  ∧ iterNumSync (some "Iteration  12") = some 12
  ∧ iterationNum none = none
  ∧ (∀ s : String, (∀ c ∈ s.data, c ≠ 'I' ∧ c ≠ 'i') →
      iterationNum (some s) = none) := by
  refine ⟨by decide, by decide, by decide, by decide, rfl, ?_⟩
  intro s h
  show scanIter s.toList = none
  exact scanIter_none s.toList h

/-- Witness for `iteration_parsing_amended`: a path without any `I`. -/
theorem iteration_parsing_amended_witness :
    iterationNum (some "Q4 2025") = none :=
  iteration_parsing_amended.2.2.2.2.2 "Q4 2025" (by decide)

/-! ### C7: year derivation -/

/-- Feature with `iteration_path = "FY24-Q1"`, no explicit year, and a 2023
change timestamp. -/
def fy24Feature : AdoFeature :=
  { feature_id := 7, title := none, state := none, team_raw := none
    app_name_raw := none, effort_points := none
    iteration_path := some "FY24-Q1"
    created_at := none, changed_at := some ⟨2023, 5, 1⟩, ado_year := none
    investment_dimension := none }

/-- C7 counterexample: the code never extracts a year (4-digit or `FY`
pattern) from the iteration path; with no explicit year column it falls
back to the timestamp year, so `"FY24-Q1"` with a 2023 change date yields
year 2023, not the 2024 the claim states. -/
theorem year_derivation_counterexample :
    adoYearOf fy24Feature = some 2023
  ∧ adoYearOf fy24Feature ≠ some 2024 := by decide

/-- C7 amended: the year used for cohorting is the explicit `ADO_YEAR`
column when present, else the calendar year of the changed (else created)
timestamp, else null; the iteration path text is never consulted. -/
theorem year_derivation_amended (af : AdoFeature) :
    (∀ p q : Option String,
        adoYearOf { af with iteration_path := p }
          = adoYearOf { af with iteration_path := q })
  ∧ (∀ y, af.ado_year = some y → adoYearOf af = some y)
  ∧ (∀ t, af.ado_year = none → af.changed_at = some t →
      adoYearOf af = some t.year)
  ∧ (∀ t, af.ado_year = none → af.changed_at = none →
      af.created_at = some t → adoYearOf af = some t.year)
  ∧ (af.ado_year = none → af.changed_at = none → af.created_at = none →
      adoYearOf af = none) := by
  refine ⟨fun p q => rfl, ?_, ?_, ?_, ?_⟩
  · intro y hy
    unfold adoYearOf
    rw [hy]
  · intro t h1 h2
    unfold adoYearOf
    rw [h1, h2]
  · intro t h1 h2 h3
    unfold adoYearOf
    rw [h1, h2, h3]
  · intro h1 h2 h3
    unfold adoYearOf
    rw [h1, h2, h3]

/-- Witness for `year_derivation_amended` on the `FY24-Q1` feature. -/
theorem year_derivation_amended_witness :
    fy24Feature.ado_year = none ∧ adoYearOf fy24Feature = some 2023 :=
  ⟨rfl, (year_derivation_amended fy24Feature).2.2.1 ⟨2023, 5, 1⟩ rfl rfl⟩

/-! ### C8: unmapped features -/

/-- Feature whose raw team label has no entry in the mapping table. -/
def unmappedFeat : AdoFeature :=
  { feature_id := 5, title := none, state := none, team_raw := some "No Map"
    app_name_raw := none, effort_points := some 5, iteration_path := some "I1"
    created_at := none, changed_at := none, ado_year := some 2025
    investment_dimension := none }

/-- C8 counterexample: an unmapped feature still yields an output row of the
view, with `TEAMID` null but every cost column equal to the number 0 — not
null/undefined cost fields as the claim states. -/
theorem unmapped_counterexample :
    (vwTeamCostsPerFeature [unmappedFeat] [mapX] [teamX] [calcX]).map
        (fun o => (o.teamid, o.team_cost_perpi, o.del_team_cost_perpi,
          o.team_contractor_cs_cost_perpi, o.team_contractor_c_cost_perpi))
      = [(none, 0, 0, 0, 0)] := by
  simp +decide [vwTeamCostsPerFeature, jRowsOf, mkJRow, mapLookup, teamLookup,
    calcLookup, outRow, teamCostPerPI, teamPiJoin, delTeamCostPerPI,
    contractorCsCostPerPI, contractorCCostPerPI, compDenom, effortQ, coalesceQ,
    adoYearOf, iterationNum, unmappedFeat, mapX, teamX, calcX, scanIter,
    matchIterAt, isPosixSpace, digitsToNat]

/-- C8 amended: a feature whose `team_raw` has no mapping entry resolves to
a null `TEAMID`, changes no team-keyed cohort (adding it to the input leaves
every `(some team, year, iteration)` cohort unchanged), and its own output
row carries 0 — not null — in all four cost columns; the row remains in the
view output, where the diagnostic query selects it by `TEAMID IS NULL`. -/
theorem unmapped_excluded (feats : List AdoFeature) (mapping : List MapRow)
    (teams : List Team) (calcs : List TeamCalc) (af : AdoFeature)
    (hun : ∀ m ∈ mapping, af.team_raw ≠ some m.ado_team) :
    (mkJRow mapping teams calcs af).teamid = none
  ∧ (∀ (tid : String) (yo : Option Int) (io : Option Nat),
      cohort (jRowsOf (af :: feats) mapping teams calcs) (some tid, yo, io)
        = cohort (jRowsOf feats mapping teams calcs) (some tid, yo, io))
  ∧ (outRow (jRowsOf (af :: feats) mapping teams calcs)
        (mkJRow mapping teams calcs af)).team_cost_perpi = 0
  ∧ (outRow (jRowsOf (af :: feats) mapping teams calcs)
        (mkJRow mapping teams calcs af)).del_team_cost_perpi = 0
  ∧ (outRow (jRowsOf (af :: feats) mapping teams calcs)
        (mkJRow mapping teams calcs af)).team_contractor_cs_cost_perpi = 0
  ∧ (outRow (jRowsOf (af :: feats) mapping teams calcs)
        (mkJRow mapping teams calcs af)).team_contractor_c_cost_perpi = 0 := by
  have hmap : mapLookup mapping af = none := by
    cases haf : af.team_raw with
    | none => unfold mapLookup; rw [haf]; rfl
    | some tr =>
      unfold mapLookup
      rw [haf]
      show mapping.find? (fun m => m.ado_team = tr) = none
      rw [List.find?_eq_none]
      intro m hm
      have := hun m hm
      rw [haf] at this
      simp only [ne_eq, Option.some.injEq] at this
      simp only [decide_eq_true_eq]
      exact fun h => this h.symm
  have hkn : (mkJRow mapping teams calcs af).teamid = none := by
    show (mapLookup mapping af).map (fun m => m.teamid) = none
    rw [hmap]
    rfl
  have hteam : teamLookup mapping teams af = none := by
    unfold teamLookup
    rw [hmap]
    rfl
  have hdz : (mkJRow mapping teams calcs af).delivery_team_fte = 0 := by
    show coalesceQ ((teamLookup mapping teams af).bind
      (fun t => t.delivery_team_fte)) = 0
    rw [hteam]
    rfl
  have hcsz : (mkJRow mapping teams calcs af).contractor_cs_fte = 0 := by
    show coalesceQ ((teamLookup mapping teams af).bind
      (fun t => t.contractor_cs_fte)) = 0
    rw [hteam]
    rfl
  have hccz : (mkJRow mapping teams calcs af).contractor_c_fte = 0 := by
    show coalesceQ ((teamLookup mapping teams af).bind
      (fun t => t.contractor_c_fte)) = 0
    rw [hteam]
    rfl
  have hden : compDenom (mkJRow mapping teams calcs af) = 0 := by
    unfold compDenom
    rw [hdz, hcsz, hccz]
    norm_num
  refine ⟨hkn, ?_, ?_, ?_, ?_, ?_⟩
  · intro tid yo io
    show cohort (mkJRow mapping teams calcs af :: jRowsOf feats mapping teams calcs)
        (some tid, yo, io) = _
    unfold cohort
    rw [List.filter_cons]
    simp [keyOf, hkn]
  · show teamCostPerPI (jRowsOf (af :: feats) mapping teams calcs)
        (mkJRow mapping teams calcs af) = 0
    unfold teamCostPerPI teamPiJoin
    rw [hkn]
  · show delTeamCostPerPI (mkJRow mapping teams calcs af) = 0
    unfold delTeamCostPerPI
    rw [if_pos hden, zero_mul, zero_mul]
  · show contractorCsCostPerPI (mkJRow mapping teams calcs af) = 0
    unfold contractorCsCostPerPI
    rw [if_pos hden, zero_mul, zero_mul]
  · show contractorCCostPerPI (mkJRow mapping teams calcs af) = 0
    unfold contractorCCostPerPI
    rw [if_pos hden, zero_mul, zero_mul]

/-- Witness for `unmapped_excluded` on the concrete unmapped feature. -/
theorem unmapped_excluded_witness :
    (mkJRow [mapX] [teamX] [calcX] unmappedFeat).teamid = none
  ∧ (outRow (jRowsOf [unmappedFeat] [mapX] [teamX] [calcX])
        (mkJRow [mapX] [teamX] [calcX] unmappedFeat)).team_cost_perpi = 0 :=
  ⟨(unmapped_excluded [] [mapX] [teamX] [calcX] unmappedFeat (by decide)).1,
   (unmapped_excluded [] [mapX] [teamX] [calcX] unmappedFeat (by decide)).2.2.1⟩

/-! ### C9 / C10: duplicate-name guards of the upserts

`upsert_team`, `upsert_program` and `upsert_vendor` first run a
case-insensitive duplicate lookup (`UPPER(NAME) = UPPER(%s)` on the trimmed
input, excluding the row with the id being upserted) and raise `ValueError`
— modelled as `Except.error` — before any `MERGE` is issued, so on error the
table is untouched; otherwise the `MERGE` updates the row with the same id
or inserts a new one. -/

/-- Row of `TEAMS` as written by `upsert_team`. -/
structure TeamRow where
  teamid : String
  teamname : String
  programid : Option String
  teamfte : Option ℚ
  delivery_team_fte : Option ℚ
  contractor_c_fte : Option ℚ
  contractor_cs_fte : Option ℚ
deriving DecidableEq, Repr

/-- Row of `PROGRAMS` as written by `upsert_program`. -/
structure ProgramRow where
  programid : String
  programname : String
  programowner : Option String
  programfte : Option ℚ
deriving DecidableEq, Repr

/-- Row of `VENDORS` as written by `upsert_vendor`. -/
structure VendorRow where
  vendorid : String
  vendorname : String
deriving DecidableEq, Repr

/-- SQL `UPPER` over the character data. -/
def upperStr (s : String) : String := ⟨s.data.map Char.toUpper⟩

/-- Python `str.strip()`: remove leading and trailing whitespace. -/
def stripStr (s : String) : String :=
  ⟨((s.data.dropWhile Char.isWhitespace).reverse.dropWhile
      Char.isWhitespace).reverse⟩

/-- Duplicate lookup of `upsert_team`:
`UPPER(TEAMNAME) = UPPER(%s) AND TEAMID <> %s` on the trimmed name. -/
def dupTeamName (tbl : List TeamRow) (team_id name : String) : Bool :=
  tbl.any (fun r =>
    decide (upperStr r.teamname = upperStr (stripStr name))
      && decide (r.teamid ≠ team_id))

/-- Duplicate lookup of `upsert_program`. -/
def dupProgramName (tbl : List ProgramRow) (program_id name : String) : Bool :=
  tbl.any (fun r =>
    decide (upperStr r.programname = upperStr (stripStr name))
      && decide (r.programid ≠ program_id))

/-- Duplicate lookup of `upsert_vendor`. -/
def dupVendorName (tbl : List VendorRow) (vendor_id name : String) : Bool :=
  tbl.any (fun r =>
    decide (upperStr r.vendorname = upperStr (stripStr name))
      && decide (r.vendorid ≠ vendor_id))

/-- `MERGE INTO TEAMS ON t.TEAMID = s.TEAMID`: matched rows are updated to
the source row, otherwise the source row is inserted. -/
def mergeTeams (tbl : List TeamRow) (row : TeamRow) : List TeamRow :=
  if tbl.any (fun r => r.teamid = row.teamid) then
    tbl.map (fun r => if r.teamid = row.teamid then row else r)
  else tbl ++ [row]

/-- `MERGE INTO PROGRAMS ON t.PROGRAMID = s.PROGRAMID`. -/
def mergePrograms (tbl : List ProgramRow) (row : ProgramRow) : List ProgramRow :=
  if tbl.any (fun r => r.programid = row.programid) then
    tbl.map (fun r => if r.programid = row.programid then row else r)
  else tbl ++ [row]

/-- `MERGE INTO VENDORS ON t.VENDORID = s.VENDORID`. -/
def mergeVendors (tbl : List VendorRow) (row : VendorRow) : List VendorRow :=
  if tbl.any (fun r => r.vendorid = row.vendorid) then
    tbl.map (fun r => if r.vendorid = row.vendorid then row else r)
  else tbl ++ [row]

/-- `upsert_team`: guard first (only for a non-blank name), then `MERGE`
with the untrimmed name. -/
def upsert_team (tbl : List TeamRow) (team_id name : String)
    (program_id : Option String)
    (team_fte delivery_team_fte contractor_c_fte contractor_cs_fte : Option ℚ) :
    Except String (List TeamRow) :=
  if stripStr name ≠ "" ∧ dupTeamName tbl team_id name then
    .error ("Team name " ++ stripStr name ++ " already exists.")
  else
    .ok (mergeTeams tbl
      { teamid := team_id, teamname := name, programid := program_id
        teamfte := team_fte, delivery_team_fte := delivery_team_fte
        contractor_c_fte := contractor_c_fte
        contractor_cs_fte := contractor_cs_fte })

/-- `upsert_program`. -/
def upsert_program (tbl : List ProgramRow) (program_id name : String)
    (owner : Option String) (fte : Option ℚ) :
    Except String (List ProgramRow) :=
  if stripStr name ≠ "" ∧ dupProgramName tbl program_id name then
    .error ("Program name " ++ stripStr name ++ " already exists.")
  else
    .ok (mergePrograms tbl
      { programid := program_id, programname := name
        programowner := owner, programfte := fte })

/-- `upsert_vendor`. -/
def upsert_vendor (tbl : List VendorRow) (vendor_id vendor_name : String) :
    Except String (List VendorRow) :=
  if stripStr vendor_name ≠ "" ∧ dupVendorName tbl vendor_id vendor_name then
    .error ("Vendor name " ++ stripStr vendor_name ++ " already exists.")
  else
    .ok (mergeVendors tbl { vendorid := vendor_id, vendorname := vendor_name })

/-- C9: Duplicate-name guard with atomicity.  For each of the three upserts,
a non-blank name that case-insensitively matches a row with a different
identifier raises `ValueError` — the guard fires before the `MERGE`, so the
error branch returns no modified table — and with no such distinct
duplicate the call succeeds and performs exactly the `MERGE`. -/
theorem upsert_duplicate_guard :
    (∀ (tbl : List TeamRow) (id name : String) (pid : Option String)
        (tf df cf csf : Option ℚ),
        (stripStr name ≠ "" → dupTeamName tbl id name →
          upsert_team tbl id name pid tf df cf csf
            = .error ("Team name " ++ stripStr name ++ " already exists."))
      ∧ (¬ (stripStr name ≠ "" ∧ dupTeamName tbl id name) →
          upsert_team tbl id name pid tf df cf csf
            = .ok (mergeTeams tbl ⟨id, name, pid, tf, df, cf, csf⟩)))
  ∧ (∀ (tbl : List ProgramRow) (id name : String) (owner : Option String)
        (fte : Option ℚ),
        (stripStr name ≠ "" → dupProgramName tbl id name →
          upsert_program tbl id name owner fte
            = .error ("Program name " ++ stripStr name ++ " already exists."))
      ∧ (¬ (stripStr name ≠ "" ∧ dupProgramName tbl id name) →
          upsert_program tbl id name owner fte
            = .ok (mergePrograms tbl ⟨id, name, owner, fte⟩)))
  ∧ (∀ (tbl : List VendorRow) (id name : String),
        (stripStr name ≠ "" → dupVendorName tbl id name →
          upsert_vendor tbl id name
            = .error ("Vendor name " ++ stripStr name ++ " already exists."))
      ∧ (¬ (stripStr name ≠ "" ∧ dupVendorName tbl id name) →
          upsert_vendor tbl id name
            = .ok (mergeVendors tbl ⟨id, name⟩))) := by
  refine ⟨?_, ?_, ?_⟩
  · intro tbl id name pid tf df cf csf
    constructor
    · intro h1 h2
      unfold upsert_team
      rw [if_pos ⟨h1, h2⟩]
    · intro h
      unfold upsert_team
      rw [if_neg h]
  · intro tbl id name owner fte
    constructor
    · intro h1 h2
      unfold upsert_program
      rw [if_pos ⟨h1, h2⟩]
    · intro h
      unfold upsert_program
      rw [if_neg h]
  · intro tbl id name
    constructor
    · intro h1 h2
      unfold upsert_vendor
      rw [if_pos ⟨h1, h2⟩]
    · intro h
      unfold upsert_vendor
      rw [if_neg h]

/-- Existing team row named Alpha under id1. -/
def teamRowAlpha : TeamRow :=
  { teamid := "id1", teamname := "Alpha", programid := none, teamfte := none
    delivery_team_fte := none, contractor_c_fte := none
    contractor_cs_fte := none }

/-- Witness for `upsert_duplicate_guard`: inserting a second team named
`alpha` under a new id raises, and a fresh vendor insert proceeds to the
`MERGE`. -/
theorem upsert_duplicate_guard_witness :
    upsert_team [teamRowAlpha] "id2" "alpha" none none none none none
      = .error ("Team name alpha already exists.")
  ∧ upsert_vendor [] "v1" "Acme"
      = .ok (mergeVendors [] ⟨"v1", "Acme"⟩) :=
  ⟨(upsert_duplicate_guard.1 [teamRowAlpha] "id2" "alpha" none
      none none none none).1 (by decide) (by decide),
   (upsert_duplicate_guard.2.2 [] "v1" "Acme").2 (by decide)⟩

/-- A second, distinct team row that already carries the same name. -/
def teamRowAlpha2 : TeamRow :=
  { teamid := "id2", teamname := "Alpha", programid := none, teamfte := none
    delivery_team_fte := none, contractor_c_fte := none
    contractor_cs_fte := none }

/-- C10 counterexample: when the table already holds two distinct rows with
the same name, re-saving the first row with its own id and current name
still raises, because the excluded-id lookup finds the other row. -/
theorem self_update_counterexample :
    upsert_team [teamRowAlpha, teamRowAlpha2] "id1" "Alpha"
        none none none none none
      = .error ("Team name Alpha already exists.") := rfl

/-- C10 amended: provided no other row of the table carries a
case-insensitively equal name (names unique up to case and trimming),
upserting a row with its own identifier and current name never raises: the
duplicate lookup excludes the row whose identifier equals the one being
upserted, so the call proceeds to the `MERGE`.  Likewise for programs and
vendors. -/
theorem self_update_no_duplicate :
    (∀ (tbl : List TeamRow) (r : TeamRow) (pid : Option String)
        (tf df cf csf : Option ℚ), r ∈ tbl →
        (∀ s ∈ tbl, s.teamid ≠ r.teamid →
          upperStr s.teamname ≠ upperStr (stripStr r.teamname)) →
        upsert_team tbl r.teamid r.teamname pid tf df cf csf
          = .ok (mergeTeams tbl ⟨r.teamid, r.teamname, pid, tf, df, cf, csf⟩))
  ∧ (∀ (tbl : List ProgramRow) (r : ProgramRow) (owner : Option String)
        (fte : Option ℚ), r ∈ tbl →
        (∀ s ∈ tbl, s.programid ≠ r.programid →
          upperStr s.programname ≠ upperStr (stripStr r.programname)) →
        upsert_program tbl r.programid r.programname owner fte
          = .ok (mergePrograms tbl ⟨r.programid, r.programname, owner, fte⟩))
  ∧ (∀ (tbl : List VendorRow) (r : VendorRow), r ∈ tbl →
        (∀ s ∈ tbl, s.vendorid ≠ r.vendorid →
          upperStr s.vendorname ≠ upperStr (stripStr r.vendorname)) →
        upsert_vendor tbl r.vendorid r.vendorname
          = .ok (mergeVendors tbl ⟨r.vendorid, r.vendorname⟩)) := by
  refine ⟨?_, ?_, ?_⟩
  · intro tbl r pid tf df cf csf _ huniq
    unfold upsert_team
    rw [if_neg]
    rintro ⟨_, hdup⟩
    obtain ⟨s, hs, hp⟩ := List.any_eq_true.mp hdup
    rw [Bool.and_eq_true, decide_eq_true_eq, decide_eq_true_eq] at hp
    exact huniq s hs hp.2 hp.1
  · intro tbl r owner fte _ huniq
    unfold upsert_program
    rw [if_neg]
    rintro ⟨_, hdup⟩
    obtain ⟨s, hs, hp⟩ := List.any_eq_true.mp hdup
    rw [Bool.and_eq_true, decide_eq_true_eq, decide_eq_true_eq] at hp
    exact huniq s hs hp.2 hp.1
  · intro tbl r _ huniq
    unfold upsert_vendor
    rw [if_neg]
    rintro ⟨_, hdup⟩
    obtain ⟨s, hs, hp⟩ := List.any_eq_true.mp hdup
    rw [Bool.and_eq_true, decide_eq_true_eq, decide_eq_true_eq] at hp
    exact huniq s hs hp.2 hp.1

/-- Witness for `self_update_no_duplicate`: re-saving the only Alpha row
with its own id and name succeeds past the guard. -/
theorem self_update_no_duplicate_witness :
    upsert_team [teamRowAlpha] "id1" "Alpha" none none none none none
      = .ok (mergeTeams [teamRowAlpha]
          ⟨"id1", "Alpha", none, none, none, none, none⟩) :=
  self_update_no_duplicate.1 [teamRowAlpha] teamRowAlpha
    none none none none none (by decide) (by decide)

end TcoStreamlit
